import Mathlib

/-!
Verification of the cloudflare-cli repository's zone-resolution,
record-operation and output-rendering layer.

The Go source is shallowly embedded:

* `internal/output/output.go` — `writeASCIITable` (column widths, padding,
  two-space join) and `writeTableAsJSON` (row → header-keyed object).
  Go's `len` on strings counts bytes; the embedding counts characters,
  which coincides on the ASCII data these claims range over.  Go's
  `encoding/json` encodes a nil slice as `null`; the slice that is nil
  until the first `append` is modelled as an `Option` accumulator.
* `internal/client` (`src/unnamed/part_003`) — `looksLikeZoneID`,
  `isPermissionError`, `GetZone`.  Provider calls are inputs: the result
  the provider would return is passed in, and the sequence of provider
  calls the function performs is returned as a trace.
* `cmd/dns.go` — the create and update command bodies, as functions from
  flag state (value plus cobra's `Changed` bit) to the outgoing provider
  request (`Except` for the early-return validation errors).
-/

namespace CFCli

/-! ### Strings: Go `strings.Contains` / `strings.ToLower` helpers -/

/-- Character-list version of "pat occurs at the start of l". -/
def startsWithL : List Char → List Char → Bool
  | _, [] => true
  | [], _ :: _ => false
  | c :: cs, p :: ps => c == p && startsWithL cs ps

/-- Character-list version of Go `strings.Contains`. -/
def containsL : List Char → List Char → Bool
  | [], pat => pat.isEmpty
  | c :: cs, pat => startsWithL (c :: cs) pat || containsL cs pat

/-- Embedding of Go `strings.Contains s pat`. -/
def strContains (s pat : String) : Bool :=
  containsL s.data pat.data

theorem startsWithL_append (pat a b : List Char)
    (h : startsWithL a pat = true) : startsWithL (a ++ b) pat = true := by
  induction pat generalizing a with
  | nil => simp [startsWithL]
  | cons p ps ih =>
    cases a with
    | nil => simp [startsWithL] at h
    | cons c cs =>
      simp only [startsWithL, Bool.and_eq_true] at h
      simpa [startsWithL, h.1] using ih cs h.2

theorem containsL_nil_pat (l : List Char) : containsL l [] = true := by
  cases l <;> simp [containsL, startsWithL]

theorem containsL_append_left (a b pat : List Char)
    (h : containsL a pat = true) : containsL (a ++ b) pat = true := by
  induction a with
  | nil =>
    simp only [containsL, List.isEmpty_iff] at h
    subst h
    simpa using containsL_nil_pat b
  | cons c cs ih =>
    simp only [containsL, Bool.or_eq_true] at h
    rcases h with h | h
    · simp only [List.cons_append, containsL, Bool.or_eq_true]
      exact Or.inl (startsWithL_append _ _ _ h)
    · simp only [List.cons_append, containsL, Bool.or_eq_true]
      exact Or.inr (ih h)

theorem strContains_append_left (s t pat : String)
    (h : strContains s pat = true) : strContains (s ++ t) pat = true := by
  cases s with
  | mk sd =>
    cases t with
    | mk td =>
      simpa [strContains, String.data] using
        containsL_append_left sd td pat.data (by simpa [strContains] using h)

/-! ### Output renderer — `internal/output/output.go` -/

/-- Go `fmt.Sprintf("%-*s", w, s)`: pad `s` on the right with spaces to
width `w`; a string already at least `w` long is left unchanged (never
truncated). -/
def padRight (s : String) (w : Nat) : String :=
  s ++ String.mk (List.replicate (w - s.length) ' ')

/-- One pass of the width loop in `writeASCIITable`: for each cell at
index `i` with `i < len(widths)`, raise `widths[i]` to the cell's length.
Cells beyond `len(widths)` are ignored; widths beyond the row are kept. -/
def updWidths : List Nat → List String → List Nat
  | ws, [] => ws
  | [], _ :: _ => []
  | w :: ws, c :: cs => max w c.length :: updWidths ws cs

/-- The column widths computed by `writeASCIITable`: start from the
header lengths, then fold the width loop over all rows. -/
def colWidths (headers : List String) (rows : List (List String)) : List Nat :=
  rows.foldl updWidths (headers.map String.length)

/-- The cell-formatting loop of `writeASCIITable`: pad each cell of the
row whose index is below `len(widths)`; later cells append nothing. -/
def renderCells : List Nat → List String → List String
  | _, [] => []
  | [], _ :: _ => []
  | w :: ws, c :: cs => padRight c w :: renderCells ws cs

/-- One output line of `writeASCIITable`: padded cells joined by two
spaces. -/
def renderLine (ws : List Nat) (cells : List String) : String :=
  String.intercalate "  " (renderCells ws cells)

/-- `writeASCIITable`: the list of printed lines — the header line first,
then one line per row, all built with the same padding and join logic. -/
def writeASCIITable (headers : List String) (rows : List (List String)) :
    List String :=
  let ws := colWidths headers rows
  renderLine ws headers :: rows.map (renderLine ws)

/-- The per-row loop body of `writeTableAsJSON`: `item[header] = row[i]`
for every header index `i` with `i < len(row)`.  Headers with no
corresponding cell contribute no key. -/
def rowToObj : List String → List String → List (String × String)
  | [], _ => []
  | _ :: _, [] => []
  | h :: hs, c :: cs => (h, c) :: rowToObj hs cs

/-- The JSON values `writeTableAsJSON` can emit. -/
inductive Json where
  | null : Json
  | arr : List Json → Json
  | obj : List (String × String) → Json

/-- The `result` slice of `writeTableAsJSON`: declared nil
(`var result []map[string]string`), it becomes non-nil only when a row is
appended — modelled as an `Option` that is `none` until the first
append. -/
def buildResult (headers : List String) (rows : List (List String)) :
    Option (List (List (String × String))) :=
  rows.foldl (fun acc row => some (acc.getD [] ++ [rowToObj headers row])) none

/-- Go `encoding/json` on the `result` slice: a nil slice encodes as
`null`, a non-nil slice as an array of objects. -/
def encodeTableJSON : Option (List (List (String × String))) → Json
  | none => Json.null
  | some objs => Json.arr (objs.map Json.obj)

/-- `writeTableAsJSON`: build the slice of header-keyed objects and
encode it. -/
def writeTableAsJSON (headers : List String) (rows : List (List String)) :
    Json :=
  encodeTableJSON (buildResult headers rows)

/-- `FormatBool` from output.go. -/
def FormatBool (b : Bool) : String :=
  if b then "true" else "false"

/-- `FormatTTL` from output.go: TTL 1 renders as `"Auto"`. -/
def FormatTTL (ttl : Int) : String :=
  if ttl == 1 then "Auto" else toString ttl

/-! #### Width-loop lemmas -/

theorem updWidths_length (ws : List Nat) (row : List String) :
    (updWidths ws row).length = ws.length := by
  induction ws generalizing row with
  | nil => cases row <;> simp [updWidths]
  | cons w ws ih => cases row <;> simp [updWidths, ih]

theorem updWidths_getD (ws : List Nat) (row : List String) (i : Nat)
    (hi : i < ws.length) :
    (updWidths ws row).getD i 0 = max (ws.getD i 0) ((row.getD i "").length) := by
  induction ws generalizing row i with
  | nil => simp at hi
  | cons w ws ih =>
    cases row with
    | nil => simp [updWidths]
    | cons c cs =>
      cases i with
      | zero => simp [updWidths]
      | succ j =>
        simp only [updWidths, List.getD_cons_succ]
        exact ih cs j (by simpa using hi)

/-- Folding `max` over a list commutes with the initial accumulator. -/
theorem foldl_max_init (g : List String → Nat) (rs : List (List String))
    (a : Nat) :
    rs.foldl (fun m row => max m (g row)) a
      = max a (rs.foldl (fun m row => max m (g row)) 0) := by
  induction rs generalizing a with
  | nil => simp
  | cons r rs ih =>
    simp only [List.foldl_cons]
    rw [ih (max a (g r)), ih (max 0 (g r))]
    simp [Nat.max_assoc]

/-- The maximum cell length in column `i` over all rows (0 when no row
reaches the column). -/
def colCellMax (rows : List (List String)) (i : Nat) : Nat :=
  rows.foldl (fun m row => max m ((row.getD i "").length)) 0

theorem foldl_updWidths_getD (rows : List (List String)) (ws : List Nat)
    (i : Nat) (hi : i < ws.length) :
    (rows.foldl updWidths ws).getD i 0 = max (ws.getD i 0) (colCellMax rows i) := by
  induction rows generalizing ws with
  | nil => simp [colCellMax]
  | cons r rs ih =>
    simp only [List.foldl_cons, colCellMax]
    rw [ih (updWidths ws r) (by simpa [updWidths_length] using hi),
      updWidths_getD ws r i hi]
    show _ = max (ws.getD i 0)
      (rs.foldl (fun m row => max m ((row.getD i "").length))
        (max 0 ((r.getD i "").length)))
    rw [foldl_max_init (fun row => (row.getD i "").length) rs
      (max 0 ((r.getD i "").length))]
    simp [colCellMax, Nat.max_assoc]

theorem foldl_updWidths_length (rows : List (List String)) (ws : List Nat) :
    (rows.foldl updWidths ws).length = ws.length := by
  induction rows generalizing ws with
  | nil => rfl
  | cons r rs ih => simp [List.foldl_cons, ih, updWidths_length]

theorem colWidths_length (headers : List String) (rows : List (List String)) :
    (colWidths headers rows).length = headers.length := by
  simp [colWidths, foldl_updWidths_length]

theorem map_length_getD (l : List String) (i : Nat) :
    (l.map String.length).getD i 0 = (l.getD i "").length := by
  induction l generalizing i with
  | nil => simp
  | cons h t ih =>
    cases i with
    | zero => rfl
    | succ n =>
      simp only [List.map_cons, List.getD_cons_succ]
      exact ih n

theorem colWidths_getD (headers : List String) (rows : List (List String))
    (i : Nat) (hi : i < headers.length) :
    (colWidths headers rows).getD i 0
      = max ((headers.getD i "").length) (colCellMax rows i) := by
  unfold colWidths
  rw [foldl_updWidths_getD rows (headers.map String.length) i (by simpa using hi),
    map_length_getD]

/-! #### Padding and cell-rendering lemmas -/

theorem padRight_length (s : String) (w : Nat) :
    (padRight s w).length = max s.length w := by
  cases s with
  | mk l =>
    show (String.mk (l ++ List.replicate (w - l.length) ' ')).length = _
    simp [String.length]
    omega

theorem padRight_data (s : String) (w : Nat) :
    (padRight s w).data = s.data ++ List.replicate (w - s.length) ' ' := by
  cases s with
  | mk l => rfl

theorem renderCells_length (ws : List Nat) (row : List String) :
    (renderCells ws row).length = min ws.length row.length := by
  induction ws generalizing row with
  | nil => cases row <;> simp [renderCells]
  | cons w ws ih =>
    cases row with
    | nil => simp [renderCells]
    | cons c cs =>
      simp only [renderCells, List.length_cons, ih]
      omega

theorem renderCells_getD (ws : List Nat) (row : List String) (j : Nat)
    (hj : j < min ws.length row.length) :
    (renderCells ws row).getD j "" = padRight (row.getD j "") (ws.getD j 0) := by
  induction ws generalizing row j with
  | nil => simp at hj
  | cons w ws ih =>
    cases row with
    | nil => simp at hj
    | cons c cs =>
      cases j with
      | zero => simp [renderCells]
      | succ k =>
        simp only [renderCells, List.getD_cons_succ]
        exact ih cs k (by simp at hj ⊢; omega)

theorem renderCells_take (ws : List Nat) (row : List String) :
    renderCells ws row = renderCells ws (row.take ws.length) := by
  induction ws generalizing row with
  | nil => cases row <;> simp [renderCells]
  | cons w ws ih =>
    cases row with
    | nil => simp [renderCells]
    | cons c cs =>
      show padRight c w :: renderCells ws cs
          = padRight c w :: renderCells ws (cs.take ws.length)
      rw [ih cs]

theorem updWidths_take (ws : List Nat) (row : List String) :
    updWidths ws row = updWidths ws (row.take ws.length) := by
  induction ws generalizing row with
  | nil => cases row <;> simp [updWidths]
  | cons w ws ih =>
    cases row with
    | nil => simp [updWidths]
    | cons c cs =>
      show max w c.length :: updWidths ws cs
          = max w c.length :: updWidths ws (cs.take ws.length)
      rw [ih cs]

theorem foldl_updWidths_take (rows : List (List String)) (ws : List Nat) :
    rows.foldl updWidths ws
      = (rows.map (fun r => r.take ws.length)).foldl updWidths ws := by
  induction rows generalizing ws with
  | nil => rfl
  | cons r rs ih =>
    simp only [List.map_cons, List.foldl_cons]
    rw [← updWidths_take, ih (updWidths ws r), updWidths_length]

theorem rowToObj_map_fst (headers row : List String) :
    (rowToObj headers row).map Prod.fst = headers.take row.length := by
  induction headers generalizing row with
  | nil => simp [rowToObj]
  | cons h hs ih =>
    cases row with
    | nil => simp [rowToObj]
    | cons c cs => simp [rowToObj, ih]

/-! ### Claim theorems about the output renderer -/

/-- C7: in table mode every rendered column's width is the maximum of the
header length and all cell lengths of that column; every cell is padded
right to its column width and never truncated (the padded string starts
with the original cell and has length `max cell width`); columns are
joined with exactly two spaces; and the header row is rendered with the
same padding and join logic as data rows and printed first. -/
theorem writeASCIITable_width_invariant
    (headers : List String) (rows : List (List String)) (i : Nat)
    (hi : i < headers.length) :
    (colWidths headers rows).getD i 0
      = max ((headers.getD i "").length) (colCellMax rows i) ∧
    (∀ (ws : List Nat) (row : List String) (j : Nat),
        j < min ws.length row.length →
        (renderCells ws row).getD j "" = padRight (row.getD j "") (ws.getD j 0)) ∧
    (∀ (s : String) (w : Nat),
        (padRight s w).length = max s.length w ∧
        (padRight s w).data = s.data ++ List.replicate (w - s.length) ' ') ∧
    (∀ (ws : List Nat) (cells : List String),
        renderLine ws cells = String.intercalate "  " (renderCells ws cells)) ∧
    writeASCIITable headers rows
      = renderLine (colWidths headers rows) headers
        :: rows.map (renderLine (colWidths headers rows)) :=
  ⟨colWidths_getD headers rows i hi,
   renderCells_getD,
   fun s w => ⟨padRight_length s w, padRight_data s w⟩,
   fun _ _ => rfl,
   rfl⟩

/-- C7 witness: the invariant instantiated at concrete headers, rows and
column index 0. -/
theorem writeASCIITable_width_invariant_witness :
    (colWidths ["ID", "Type"] [["1", "A"], ["3333", "B"]]).getD 0 0
      = max ("ID".length) (colCellMax [["1", "A"], ["3333", "B"]] 0) :=
  (writeASCIITable_width_invariant ["ID", "Type"] [["1", "A"], ["3333", "B"]]
    0 (by decide)).1

/-- C2: for headers `["ID","Type"]` and the single short row `["1"]`,
structured (JSON) mode renders the one record with only the `"ID"` key
(no `"Type"` key), and table mode is total and renders the line made of
the first cell padded to its column width, the second column staying
empty; in general the keys of a structured row are exactly the first
`row.length` headers, so headers beyond a short row are omitted rather
than included with empty values. -/
theorem output_short_row_structured_omits_table_pads :
    writeTableAsJSON ["ID", "Type"] [["1"]]
      = Json.arr [Json.obj [("ID", "1")]] ∧
    writeASCIITable ["ID", "Type"] [["1"]] = ["ID  Type", "1 "] ∧
    ∀ (headers row : List String),
      (rowToObj headers row).map Prod.fst = headers.take row.length :=
  ⟨rfl, by decide, rowToObj_map_fst⟩

/-- C9: a row longer than the header list is rendered totally: its extra
cells contribute nothing to any column width, are not rendered (only the
first `headers.length` cells produce output), and the number of rendered
cells is `min headers.length row.length`. -/
theorem writeASCIITable_long_rows_safe
    (headers : List String) (rows : List (List String)) (row : List String) :
    colWidths headers rows
      = colWidths headers (rows.map (fun r => r.take headers.length)) ∧
    renderCells (colWidths headers rows) row
      = renderCells (colWidths headers rows) (row.take headers.length) ∧
    (renderCells (colWidths headers rows) row).length
      = min headers.length row.length := by
  refine ⟨?_, ?_, ?_⟩
  · unfold colWidths
    simpa using foldl_updWidths_take rows (headers.map String.length)
  · rw [renderCells_take (colWidths headers rows) row, colWidths_length]
  · rw [renderCells_length, colWidths_length]

/-- C10: rendering an empty row list in structured (JSON) mode encodes
the never-appended (nil) slice, which encodes as JSON `null`, not as the
empty array. -/
theorem writeTableAsJSON_empty_rows_null (headers : List String) :
    buildResult headers [] = none ∧
    writeTableAsJSON headers [] = Json.null ∧
    Json.null ≠ Json.arr [] :=
  ⟨rfl, rfl, fun h => Json.noConfusion h⟩

/-! ### Client layer — zone resolution (`internal/client`, src/unnamed/part_003) -/

/-- The per-rune test inside `looksLikeZoneID`. -/
def isLowerHexChar (c : Char) : Bool :=
  (decide ('0' ≤ c) && decide (c ≤ '9')) || (decide ('a' ≤ c) && decide (c ≤ 'f'))

/-- `looksLikeZoneID`: length 32 and every character in `[0-9a-f]`.
Go checks `len(s) == 32` on bytes and then ranges over runes; since the
function only returns `true` when every rune is ASCII hex, the byte
count and the character count agree on every accepted string, so the
character-based embedding computes the same function. -/
def looksLikeZoneID (s : String) : Bool :=
  s.length == 32 && s.data.all isLowerHexChar

/-- Go `strings.ToLower`, mapping the rune-wise lowercase over the
string (the markers tested below are ASCII). -/
def strToLower (s : String) : String :=
  String.mk (s.data.map Char.toLower)

/-- `isPermissionError` on an error message (the Go function is called
only on non-nil errors): case-insensitive containment of one of the four
permission markers. -/
def isPermissionError (msg : String) : Bool :=
  let l := strToLower msg
  strContains l "permission" || strContains l "unauthorized" ||
    strContains l "forbidden" || strContains l "403"

/-- The `Zone` struct of the client package. -/
structure ZoneInfo where
  id : String
  name : String
  status : String

/-- A provider API call performed by `GetZone`, recorded in order. -/
inductive ProviderCall where
  | zoneDetails : String → ProviderCall
  | listZonesByName : String → ProviderCall

/-- The fixed text of the guidance error built by `GetZone` when the
name lookup fails with a permission-classified error; `%w` appends the
provider error at the end. -/
def permissionGuidanceFixed : String :=
  "permission denied when looking up zone by name.\n\nThis usually happens when your API token is scoped to specific zones.\nTo fix this, either:\n  1. Use the zone ID directly: cf zones get <zone-id>\n  2. Grant your token \"All zones\" read permission\n\nError: "

/-- The full guidance message wrapping a provider error `e`. -/
def permissionGuidance (e : String) : String :=
  permissionGuidanceFixed ++ e

/-- The NotFound message of `GetZone`. -/
def zoneNotFoundMsg (s : String) : String :=
  "zone not found: " ++ s

/-- `GetZone`, with the provider abstracted: `zd` is what
`api.ZoneDetails` would return (consulted only on the fast path), `lz`
what `api.ListZones(ctx, nameOrID)` would return.  The first component
of the result is the ordered list of provider calls performed; the
second is the function's result. -/
def GetZone (zd : Except String ZoneInfo) (lz : Except String (List ZoneInfo))
    (nameOrID : String) : List ProviderCall × Except String ZoneInfo :=
  let nameLookup : List ProviderCall × Except String ZoneInfo :=
    ([ProviderCall.listZonesByName nameOrID],
      match lz with
      | Except.error e =>
        if isPermissionError e then Except.error (permissionGuidance e)
        else Except.error e
      | Except.ok zones =>
        match zones with
        | [] => Except.error (zoneNotFoundMsg nameOrID)
        | z :: _ => Except.ok z)
  if looksLikeZoneID nameOrID then
    match zd with
    | Except.ok z => ([ProviderCall.zoneDetails nameOrID], Except.ok z)
    | Except.error _ =>
      (ProviderCall.zoneDetails nameOrID :: nameLookup.1, nameLookup.2)
  else nameLookup

theorem strLength_append (a b : String) :
    (a ++ b).length = a.length + b.length := by
  cases a with
  | mk l =>
    cases b with
    | mk m =>
      show (l ++ m).length = l.length + m.length
      exact List.length_append l m

/-! ### Claim theorems about zone resolution -/

/-- C4: `GetZone` attempts the direct fetch-by-identifier first exactly
when the input is 32 characters long and all characters are lowercase
hex; any other input performs only the name lookup; and a successful
identifier fetch returns that zone immediately, with no name lookup in
the call trace. -/
theorem getZone_fast_path_iff (zd : Except String ZoneInfo)
    (lz : Except String (List ZoneInfo)) (s : String) :
    (looksLikeZoneID s = true ↔
      (s.length = 32 ∧ ∀ c ∈ s.data, ('0' ≤ c ∧ c ≤ '9') ∨ ('a' ≤ c ∧ c ≤ 'f'))) ∧
    ((GetZone zd lz s).1.head? = some (ProviderCall.zoneDetails s) ↔
      looksLikeZoneID s = true) ∧
    (looksLikeZoneID s = false →
      (GetZone zd lz s).1 = [ProviderCall.listZonesByName s]) ∧
    (∀ z : ZoneInfo, looksLikeZoneID s = true → zd = Except.ok z →
      (GetZone zd lz s).1 = [ProviderCall.zoneDetails s] ∧
      (GetZone zd lz s).2 = Except.ok z) := by
  refine ⟨?_, ?_, ?_, ?_⟩
  · simp [looksLikeZoneID, isLowerHexChar, List.all_eq_true]
  · by_cases h : looksLikeZoneID s = true
    · cases zd <;> simp [GetZone, h]
    · simp only [Bool.not_eq_true] at h
      simp [GetZone, h]
  · intro h
    simp [GetZone, h]
  · intro z h hz
    subst hz
    simp [GetZone, h]

/-- C4 witness: a 32-lowercase-hex input with a successful identifier
fetch yields exactly one provider call and returns that zone. -/
theorem getZone_fast_path_iff_witness :
    (GetZone (Except.ok ⟨"023e105f4ecef8ad9ca31a8372d0c353", "example.com", "active"⟩)
        (Except.ok []) "023e105f4ecef8ad9ca31a8372d0c353").1
      = [ProviderCall.zoneDetails "023e105f4ecef8ad9ca31a8372d0c353"] ∧
    (GetZone (Except.ok ⟨"023e105f4ecef8ad9ca31a8372d0c353", "example.com", "active"⟩)
        (Except.ok []) "023e105f4ecef8ad9ca31a8372d0c353").2
      = Except.ok ⟨"023e105f4ecef8ad9ca31a8372d0c353", "example.com", "active"⟩ :=
  (getZone_fast_path_iff
      (Except.ok ⟨"023e105f4ecef8ad9ca31a8372d0c353", "example.com", "active"⟩)
      (Except.ok []) "023e105f4ecef8ad9ca31a8372d0c353").2.2.2
    ⟨"023e105f4ecef8ad9ca31a8372d0c353", "example.com", "active"⟩
    (by decide) rfl

/-- C3: when the name lookup fails with a permission-classified error,
`GetZone` returns the guidance message — which contains the remediation
text about scoped tokens and about using the zone identifier directly,
and is never the raw provider error alone — while a non-permission
failure of the name lookup is propagated verbatim. -/
theorem getZone_permission_guidance (zd : Except String ZoneInfo)
    (s e e' : String)
    (hreach : looksLikeZoneID s = false ∨ ∃ d, zd = Except.error d)
    (hperm : isPermissionError e = true)
    (hnon : isPermissionError e' = false) :
    (GetZone zd (Except.error e) s).2 = Except.error (permissionGuidance e) ∧
    strContains (permissionGuidance e) "scoped to specific zones" = true ∧
    strContains (permissionGuidance e) "Use the zone ID directly" = true ∧
    permissionGuidance e ≠ e ∧
    (GetZone zd (Except.error e') s).2 = Except.error e' := by
  refine ⟨?_, ?_, ?_, ?_, ?_⟩
  · rcases hreach with hr | ⟨d, hd⟩
    · simp [GetZone, hr, hperm]
    · subst hd
      by_cases hl : looksLikeZoneID s = true <;> simp [GetZone, hl, hperm]
  · exact strContains_append_left _ e _ (by decide)
  · exact strContains_append_left _ e _ (by decide)
  · intro hEq
    have hlen := congrArg String.length hEq
    rw [permissionGuidance, strLength_append] at hlen
    have hfix : 0 < permissionGuidanceFixed.length := by
      set_option maxRecDepth 4000 in decide
    omega
  · rcases hreach with hr | ⟨d, hd⟩
    · simp [GetZone, hr, hnon]
    · subst hd
      by_cases hl : looksLikeZoneID s = true <;> simp [GetZone, hl, hnon]

/-- C3 witness: a 403-classified failure of the name lookup on a
non-identifier input produces the guidance error, and a plain network
error is propagated raw. -/
theorem getZone_permission_guidance_witness :
    (GetZone (Except.error "unused") (Except.error "HTTP status 403") "example.com").2
      = Except.error (permissionGuidance "HTTP status 403") ∧
    (GetZone (Except.error "unused") (Except.error "connection reset") "example.com").2
      = Except.error "connection reset" := by
  have h := getZone_permission_guidance (Except.error "unused")
    "example.com" "HTTP status 403" "connection reset"
    (Or.inl (by decide)) (by decide) (by decide)
  exact ⟨h.1, h.2.2.2.2⟩

/-- C5: when `GetZone` reaches the name-lookup path, a provider answer
of zero zones yields a not-found error whose message names the input,
and an answer of one or more zones yields the first zone in provider
order. -/
theorem getZone_name_lookup_results (zd : Except String ZoneInfo)
    (s : String) (z : ZoneInfo) (rest : List ZoneInfo)
    (hreach : looksLikeZoneID s = false ∨ ∃ d, zd = Except.error d) :
    (GetZone zd (Except.ok []) s).2 = Except.error (zoneNotFoundMsg s) ∧
    zoneNotFoundMsg s = "zone not found: " ++ s ∧
    (GetZone zd (Except.ok (z :: rest)) s).2 = Except.ok z := by
  rcases hreach with hr | ⟨d, hd⟩
  · exact ⟨by simp [GetZone, hr], rfl, by simp [GetZone, hr]⟩
  · subst hd
    by_cases hl : looksLikeZoneID s = true
    · exact ⟨by simp [GetZone, hl], rfl, by simp [GetZone, hl]⟩
    · exact ⟨by simp [GetZone, hl], rfl, by simp [GetZone, hl]⟩

/-- C5 witness: on input `"example.com"` the empty provider answer gives
the not-found error naming the input, and a two-zone answer gives the
first. -/
theorem getZone_name_lookup_results_witness :
    (GetZone (Except.error "unused") (Except.ok []) "example.com").2
      = Except.error (zoneNotFoundMsg "example.com") ∧
    (GetZone (Except.error "unused")
        (Except.ok [⟨"z1", "example.com", "active"⟩, ⟨"z2", "example.com", "pending"⟩])
        "example.com").2
      = Except.ok ⟨"z1", "example.com", "active"⟩ := by
  have h := getZone_name_lookup_results (Except.error "unused") "example.com"
    ⟨"z1", "example.com", "active"⟩ [⟨"z2", "example.com", "pending"⟩]
    (Or.inl (by decide))
  exact ⟨h.1, h.2.2⟩

/-! ### DNS record commands — `cmd/dns.go` -/

/-- The client `DNSRecord` struct.  Go's `TTL int` is `Int`; `Priority
*uint16` is `Option Nat` (the claims do not involve 16-bit wraparound). -/
structure DNSRecord where
  id : String
  rtype : String
  name : String
  content : String
  ttl : Int
  proxied : Bool
  priority : Option Nat
  comment : String

/-- The client `UpdateDNSRecordParams` struct: `Type`, `Name`, `Content`
are plain strings, the rest are pointers (`Option`, `none` = not sent). -/
structure UpdateDNSRecordParams where
  rtype : String
  name : String
  content : String
  ttl : Option Int
  proxied : Option Bool
  priority : Option Nat
  comment : Option String

/-- The flag state of `dns update`: each flag's current value together
with cobra's `Changed` bit (`cmd.Flags().Changed(...)`), which is `true`
exactly when the user supplied the flag — also for an explicit empty
string. -/
structure UpdateFlags where
  typeChanged : Bool
  typeVal : String
  nameChanged : Bool
  nameVal : String
  contentChanged : Bool
  contentVal : String
  ttlChanged : Bool
  ttlVal : Int
  proxiedChanged : Bool
  proxiedVal : String
  priorityChanged : Bool
  priorityVal : Nat

/-- The merge step of `dnsUpdateCmd`: start from the fetched record's
type, name and content with every pointer field nil, then override
exactly the flags marked changed.  Go validates `--proxied` inside its
`Changed("proxied")` branch and returns early; the validation test is
hoisted here into the guard of a single conditional, which is
equivalent because it fires exactly when that branch would return. -/
def mergeUpdate (existing : DNSRecord) (fl : UpdateFlags) :
    Except String UpdateDNSRecordParams :=
  let p0 : UpdateDNSRecordParams :=
    { rtype := existing.rtype, name := existing.name, content := existing.content,
      ttl := none, proxied := none, priority := none, comment := none }
  let p1 := if fl.typeChanged then { p0 with rtype := fl.typeVal } else p0
  let p2 := if fl.nameChanged then { p1 with name := fl.nameVal } else p1
  let p3 := if fl.contentChanged then { p2 with content := fl.contentVal } else p2
  let p4 := if fl.ttlChanged then { p3 with ttl := some fl.ttlVal } else p3
  if fl.proxiedChanged && (fl.proxiedVal != "true" && fl.proxiedVal != "false") then
    Except.error "--proxied must be 'true' or 'false'"
  else
    let p5 := if fl.proxiedChanged
      then { p4 with proxied := some (fl.proxiedVal == "true") } else p4
    let p6 := if fl.priorityChanged
      then { p5 with priority := some fl.priorityVal } else p5
    Except.ok p6

/-- `dnsUpdateCmd`: fetch the existing record first (`GetDNSRecord`);
a fetch failure aborts before any update is attempted; otherwise merge
the changed flags over the fetched record and produce the outgoing
update parameters. -/
def dnsUpdateRun (fetch : Except String DNSRecord) (fl : UpdateFlags) :
    Except String UpdateDNSRecordParams :=
  match fetch with
  | Except.error e => Except.error e
  | Except.ok existing => mergeUpdate existing fl

/-- The client `CreateDNSRecordParams` struct (Comment is never set by
the create command and stays at Go's zero value). -/
structure CreateDNSRecordParams where
  rtype : String
  name : String
  content : String
  ttl : Int
  proxied : Bool
  priority : Option Nat
  comment : String

/-- The flag state of `dns create`: flag defaults are `""` for type,
name, content and proxied, `1` for ttl, `0` for priority.  Cobra's
`Changed` bit for `--priority` is carried although the create command
never consults it — that is the point of claim C6's correction. -/
structure CreateFlags where
  typeVal : String
  nameVal : String
  contentVal : String
  ttlVal : Int
  proxiedVal : String
  priorityVal : Nat
  priorityChanged : Bool

/-- `dnsCreateCmd`: require type, name and content; validate
`--proxied`; send TTL as given (flag default 1), proxied parsed from the
flag string (empty means false), and priority only when the flag value
is positive (`if dnsPriority > 0`). -/
def dnsCreateRun (fl : CreateFlags) : Except String CreateDNSRecordParams :=
  if fl.typeVal == "" || fl.nameVal == "" || fl.contentVal == "" then
    Except.error "--type, --name, and --content are required"
  else if fl.proxiedVal != "" && (fl.proxiedVal != "true" && fl.proxiedVal != "false") then
    Except.error "--proxied must be 'true' or 'false'"
  else
    Except.ok
      { rtype := fl.typeVal, name := fl.nameVal, content := fl.contentVal,
        ttl := fl.ttlVal,
        proxied := fl.proxiedVal == "true",
        priority := if 0 < fl.priorityVal then some fl.priorityVal else none,
        comment := "" }

/-- What a dns list invocation renders. -/
inductive CmdOutput where
  | status : String → CmdOutput
  | table : List String → List (List String) → CmdOutput

/-- The header row used by `writeDNSRecordTable` in cmd/root.go. -/
def dnsHeaders : List String :=
  ["ID", "Type", "Name", "Content", "TTL", "Proxied"]

/-- One row of `writeDNSRecordTable`. -/
def dnsRecordRow (r : DNSRecord) : List String :=
  [r.id, r.rtype, r.name, r.content, FormatTTL r.ttl, FormatBool r.proxied]

/-- `dnsListCmd`: propagate zone-resolution and provider failures;
an empty record list is a success rendered as a status message, any
other list is rendered as a table via `writeDNSRecordTable`. -/
def dnsListRun (zoneRes : Except String String)
    (listRes : Except String (List DNSRecord)) : Except String CmdOutput :=
  match zoneRes with
  | Except.error e => Except.error e
  | Except.ok _ =>
    match listRes with
    | Except.error e => Except.error e
    | Except.ok records =>
      if records.isEmpty then Except.ok (CmdOutput.status "No DNS records found")
      else Except.ok (CmdOutput.table dnsHeaders (records.map dnsRecordRow))

/-! ### Claim theorems about the DNS record commands -/

/-- C1: the update command fetches the existing record first (a fetch
failure is returned unchanged and no update parameters are produced),
and in the outgoing update each field is overridden exactly when its
flag was marked changed — an explicit empty string counts as changed;
type, name and content fall back to the values just fetched, and ttl,
proxied and priority are sent only when changed (so with only
`--content` changed the fetched type and name are sent back verbatim
and proxied and priority are absent, preserving the existing values). -/
theorem dnsUpdate_overrides_iff_changed
    (existing : DNSRecord) (fl : UpdateFlags) (p : UpdateDNSRecordParams)
    (h : dnsUpdateRun (Except.ok existing) fl = Except.ok p) :
    p.rtype = (if fl.typeChanged then fl.typeVal else existing.rtype) ∧
    p.name = (if fl.nameChanged then fl.nameVal else existing.name) ∧
    p.content = (if fl.contentChanged then fl.contentVal else existing.content) ∧
    p.ttl = (if fl.ttlChanged then some fl.ttlVal else none) ∧
    p.proxied = (if fl.proxiedChanged then some (fl.proxiedVal == "true") else none) ∧
    p.priority = (if fl.priorityChanged then some fl.priorityVal else none) ∧
    p.comment = none ∧
    (∀ e, dnsUpdateRun (Except.error e) fl = Except.error e) := by
  rcases fl with ⟨tc, tv, nc, nv, cc, cv, ttc, ttv, pc, pv, prc, prv⟩
  unfold dnsUpdateRun mergeUpdate at h
  by_cases hpv : ((pv != "true") && (pv != "false")) = true <;>
    cases tc <;> cases nc <;> cases cc <;> cases ttc <;> cases pc <;> cases prc <;>
      simp_all [dnsUpdateRun] <;>
        first
          | (subst h; simp)
          | (rw [if_neg fun hc => hc.2 (hpv hc.1)] at h
             simp only [Except.ok.injEq] at h
             subst h
             simp)

/-- A fetched record used to instantiate C1: an unproxied A record. -/
def updExisting0 : DNSRecord :=
  { id := "372e67954025e0ba6aaa6d586b9e0b59", rtype := "A",
    name := "www.example.com", content := "192.0.2.1", ttl := 300,
    proxied := true, priority := none, comment := "" }

/-- Flag state with only `--content` changed. -/
def updFlags0 : UpdateFlags :=
  { typeChanged := false, typeVal := "", nameChanged := false, nameVal := "",
    contentChanged := true, contentVal := "192.0.2.2",
    ttlChanged := false, ttlVal := 1,
    proxiedChanged := false, proxiedVal := "",
    priorityChanged := false, priorityVal := 0 }

/-- The outgoing update parameters for `updExisting0` / `updFlags0`. -/
def updParams0 : UpdateDNSRecordParams :=
  { rtype := "A", name := "www.example.com", content := "192.0.2.2",
    ttl := none, proxied := none, priority := none, comment := none }

/-- C1 witness: updating with only `--content` changed keeps the fetched
type and sends no proxied, priority or ttl. -/
theorem dnsUpdate_overrides_iff_changed_witness :
    dnsUpdateRun (Except.ok updExisting0) updFlags0 = Except.ok updParams0 ∧
    updParams0.rtype = (if updFlags0.typeChanged then updFlags0.typeVal else updExisting0.rtype) ∧
    updParams0.proxied = none ∧ updParams0.priority = none := by
  have h := dnsUpdate_overrides_iff_changed updExisting0 updFlags0 updParams0 rfl
  exact ⟨rfl, h.1, rfl, rfl⟩

/-- C6 counterexample: the claim keys priority on the flag being
explicitly supplied, but the create command tests `dnsPriority > 0`: for
an explicitly supplied `--priority 0` (priorityChanged set, value 0) the
outgoing request omits priority instead of sending the supplied 0. -/
theorem dnsCreate_explicit_zero_priority_not_sent :
    ¬ (∀ (fl : CreateFlags) (p : CreateDNSRecordParams),
        dnsCreateRun fl = Except.ok p →
        p.priority = (if fl.priorityChanged then some fl.priorityVal else none)) := by
  intro hclaim
  have h := hclaim
    { typeVal := "MX", nameVal := "mail", contentVal := "mail.example.com",
      ttlVal := 1, proxiedVal := "", priorityVal := 0, priorityChanged := true }
    { rtype := "MX", name := "mail", content := "mail.example.com",
      ttl := 1, proxied := false, priority := none, comment := "" }
    rfl
  simp at h

/-- C6 (amended): missing type, name or content is a validation error
produced before any provider request exists; TTL is sent as the flag
value (whose default is 1, so an unspecified TTL is sent as 1); an
unspecified proxied flag yields false; and priority is included in the
outgoing request exactly when its value is positive — an explicitly
supplied `--priority 0` is indistinguishable from an unset flag and is
omitted. -/
theorem dnsCreate_validation_defaults_priority
    (fl : CreateFlags) (p : CreateDNSRecordParams) :
    ((fl.typeVal = "" ∨ fl.nameVal = "" ∨ fl.contentVal = "") →
      dnsCreateRun fl = Except.error "--type, --name, and --content are required") ∧
    (dnsCreateRun fl = Except.ok p →
      p.rtype = fl.typeVal ∧ p.name = fl.nameVal ∧ p.content = fl.contentVal ∧
      p.ttl = fl.ttlVal ∧
      (fl.proxiedVal = "" → p.proxied = false) ∧
      p.priority = (if 0 < fl.priorityVal then some fl.priorityVal else none)) := by
  constructor
  · intro hmiss
    have : (fl.typeVal == "" || fl.nameVal == "" || fl.contentVal == "") = true := by
      rcases hmiss with h | h | h <;> simp [h]
    simp [dnsCreateRun, this]
  · intro h
    unfold dnsCreateRun at h
    by_cases h1 : (fl.typeVal == "" || fl.nameVal == "" || fl.contentVal == "") = true
    · simp [h1] at h
    · by_cases h2 : ((fl.proxiedVal != "true") && (fl.proxiedVal != "false")) = true
      · by_cases h3 : (fl.proxiedVal != "") = true
        · simp [h1, h2, h3] at h
        · simp only [Bool.not_eq_true, bne_eq_false_iff_eq] at h3
          simp [h1, h2, h3] at h
          subst h
          simp [h3]
      · simp [h1, h2] at h
        subst h
        refine ⟨rfl, rfl, rfl, rfl, ?_, rfl⟩
        intro hempty
        simp [hempty]

/-- Create flag state for the C6 witness: full MX record, priority 10,
proxied unspecified. -/
def createFlags10 : CreateFlags :=
  { typeVal := "MX", nameVal := "mail", contentVal := "mail.example.com",
    ttlVal := 1, proxiedVal := "", priorityVal := 10, priorityChanged := true }

/-- The outgoing create parameters for `createFlags10`. -/
def createParams10 : CreateDNSRecordParams :=
  { rtype := "MX", name := "mail", content := "mail.example.com",
    ttl := 1, proxied := false, priority := some 10, comment := "" }

/-- C6 witness: a fully specified MX create with positive priority sends
the supplied values, and an unspecified proxied flag yields false. -/
theorem dnsCreate_validation_defaults_priority_witness :
    dnsCreateRun createFlags10 = Except.ok createParams10 ∧
    createParams10.proxied = false := by
  refine ⟨rfl, ?_⟩
  have h := (dnsCreate_validation_defaults_priority createFlags10 createParams10).2 rfl
  exact h.2.2.2.2.1 rfl

/-- C8: a list invocation whose zone resolution and provider call both
succeed with zero records returns success — a status message, not an
error and not an empty table. -/
theorem dnsList_empty_is_success (zoneID : String) :
    dnsListRun (Except.ok zoneID) (Except.ok [])
      = Except.ok (CmdOutput.status "No DNS records found") := rfl

end CFCli
